import Mathlib

/-!
Shallow embedding of the zxgo ZX Spectrum BASIC tokenizer
(pkg/basic/parser.go, token_matcher.go, numbers.go, the sequence
expander, and the token table), together with theorems settling the
frozen claims about it.

Modelling conventions:
* input text is `List Char` (the source walks ASCII strings byte-wise);
* output bytes are `Nat` values below 256; the Go casts `byte(x)` are
  written `x % 256`, and the bit operations `x & 0xFF`, `x >> 8` are
  written with `%` and `/` by powers of two, which agree on the
  non-negative values involved;
* the Go `error` results become inductive error types carrying the same
  distinctions the `fmt.Errorf` calls make (the prefix strings with the
  current line number are dropped: they are formatting only);
* `float64` arithmetic in the numeric encoder is modelled exactly by
  rationals carried as integer pairs (`QV`); the only claims about the
  float path concern the value zero, where the two agree byte for byte.
-/

namespace ZxBasic

/-- TokenType mirrors the source's `TokenType` enumeration. -/
inductive TokenType where
  | normal     -- TokenNormal: no special meaning
  | keyword    -- TokenKeyword: always a keyword
  | colour     -- TokenColour: keyword or colour parameter item
  | numExpr    -- TokenNumExpr: numeric expression token
  | strExpr    -- TokenStrExpr: string expression token
  | printOnly  -- TokenPrint: only inside (L)PRINT statements (AT, TAB)
  | typeless   -- TokenTypeless: plain ASCII or expression token
deriving DecidableEq, Repr

/-- Token mirrors the source's `Token` record: display text, kind and
the keyword-class sequence describing what may follow it. -/
structure Token where
  text : String
  type : TokenType
  keywordClass : List Nat
deriving DecidableEq, Repr

/-- Keyword-class constants, byte values as in the source. -/
def ClassNone : Nat := 0

def ClassLet : Nat := 1

def ClassLetExpr : Nat := 2

def ClassExprOpt : Nat := 3

def ClassVarChar : Nat := 4

def ClassItems : Nat := 5

def ClassNumExpr : Nat := 6

def ClassColour : Nat := 7

def ClassTwoNum : Nat := 8

def ClassTwoNumCol : Nat := 9

def ClassStrExpr : Nat := 10

def ClassTape : Nat := 11

def ClassStrList : Nat := 12

def ClassExprList : Nat := 13

def ClassVarList : Nat := 14

def ClassDEFFN : Nat := 15

/-- TokenMap reproduces the source's 256-entry token table after its
`init()` function has run: the literal entries for bytes 0x00-0x1F and
0xA3-0xFF, ASCII 32-127 as one-character typeless tokens, the special
colon entry (a keyword with class sequence `[0]` installed by `init()`),
the block-graphics texts for 0x80-0x8F and the UDG texts for 0x90-0xA2.
Class sequences embed literal separator bytes exactly as the source does
(40 `(` 41 `)` 44 `,` 61 `=` and the token bytes 0xCB..0xCD). -/
def TokenMap (i : Nat) : Token :=
  match i with
  | 6 => ⟨"", .typeless, [0]⟩
  | 13 => ⟨"(eoln)", .typeless, []⟩
  | 58 => ⟨":", .keyword, [0]⟩
  | 0xA3 => ⟨"SPECTRUM", .keyword, [ClassNone]⟩
  | 0xA4 => ⟨"PLAY", .keyword, [ClassStrList]⟩
  | 0xA5 => ⟨"RND", .numExpr, [ClassNone]⟩
  | 0xA6 => ⟨"INKEY$", .strExpr, [ClassNone]⟩
  | 0xA7 => ⟨"PI", .numExpr, [ClassNone]⟩
  | 0xA8 => ⟨"FN", .numExpr, [ClassLet, 40, ClassExprList, 41, 0]⟩
  | 0xA9 => ⟨"POINT", .numExpr, [40, ClassTwoNum, 41, 0]⟩
  | 0xAA => ⟨"SCREEN$", .strExpr, [40, ClassTwoNum, 41, 0]⟩
  | 0xAB => ⟨"ATTR", .numExpr, [40, ClassTwoNum, 41, 0]⟩
  | 0xAC => ⟨"AT", .printOnly, [ClassTwoNum]⟩
  | 0xAD => ⟨"TAB", .printOnly, [ClassNumExpr]⟩
  | 0xAE => ⟨"VAL$", .strExpr, [ClassStrExpr]⟩
  | 0xAF => ⟨"CODE", .numExpr, [ClassStrExpr]⟩
  | 0xB0 => ⟨"VAL", .numExpr, [ClassStrExpr]⟩
  | 0xB1 => ⟨"LEN", .numExpr, [ClassStrExpr]⟩
  | 0xB2 => ⟨"SIN", .numExpr, [ClassNumExpr]⟩
  | 0xB3 => ⟨"COS", .numExpr, [ClassNumExpr]⟩
  | 0xB4 => ⟨"TAN", .numExpr, [ClassNumExpr]⟩
  | 0xB5 => ⟨"ASN", .numExpr, [ClassNumExpr]⟩
  | 0xB6 => ⟨"ACS", .numExpr, [ClassNumExpr]⟩
  | 0xB7 => ⟨"ATN", .numExpr, [ClassNumExpr]⟩
  | 0xB8 => ⟨"LN", .numExpr, [ClassNumExpr]⟩
  | 0xB9 => ⟨"EXP", .numExpr, [ClassNumExpr]⟩
  | 0xBA => ⟨"INT", .numExpr, [ClassNumExpr]⟩
  | 0xBB => ⟨"SQR", .numExpr, [ClassNumExpr]⟩
  | 0xBC => ⟨"SGN", .numExpr, [ClassNumExpr]⟩
  | 0xBD => ⟨"ABS", .numExpr, [ClassNumExpr]⟩
  | 0xBE => ⟨"PEEK", .numExpr, [ClassNumExpr]⟩
  | 0xBF => ⟨"IN", .numExpr, [ClassNumExpr]⟩
  | 0xC0 => ⟨"USR", .numExpr, [ClassNumExpr]⟩
  | 0xC1 => ⟨"STR$", .strExpr, [ClassNumExpr]⟩
  | 0xC2 => ⟨"CHR$", .strExpr, [ClassNumExpr]⟩
  | 0xC3 => ⟨"NOT", .numExpr, [ClassNumExpr]⟩
  | 0xC4 => ⟨"BIN", .typeless, []⟩
  | 0xC5 => ⟨"OR", .typeless, [ClassItems]⟩
  | 0xC6 => ⟨"AND", .typeless, [ClassItems]⟩
  | 0xC7 => ⟨"<=", .typeless, [ClassItems]⟩
  | 0xC8 => ⟨">=", .typeless, [ClassItems]⟩
  | 0xC9 => ⟨"<>", .typeless, [ClassItems]⟩
  | 0xCA => ⟨"LINE", .typeless, []⟩
  | 0xCB => ⟨"THEN", .typeless, []⟩
  | 0xCC => ⟨"TO", .typeless, []⟩
  | 0xCD => ⟨"STEP", .typeless, []⟩
  | 0xCE => ⟨"DEF FN", .keyword, [ClassDEFFN]⟩
  | 0xCF => ⟨"CAT", .keyword, [ClassTape]⟩
  | 0xD0 => ⟨"FORMAT", .keyword, [ClassTape]⟩
  | 0xD1 => ⟨"MOVE", .keyword, [ClassTape]⟩
  | 0xD2 => ⟨"ERASE", .keyword, [ClassTape]⟩
  | 0xD3 => ⟨"OPEN #", .keyword, [ClassTape]⟩
  | 0xD4 => ⟨"CLOSE #", .keyword, [ClassTape]⟩
  | 0xD5 => ⟨"MERGE", .keyword, [ClassTape]⟩
  | 0xD6 => ⟨"VERIFY", .keyword, [ClassTape]⟩
  | 0xD7 => ⟨"BEEP", .keyword, [ClassTwoNum]⟩
  | 0xD8 => ⟨"CIRCLE", .keyword, [ClassTwoNumCol, 44, ClassNumExpr]⟩
  | 0xD9 => ⟨"INK", .colour, [ClassColour]⟩
  | 0xDA => ⟨"PAPER", .colour, [ClassColour]⟩
  | 0xDB => ⟨"FLASH", .colour, [ClassColour]⟩
  | 0xDC => ⟨"BRIGHT", .colour, [ClassColour]⟩
  | 0xDD => ⟨"INVERSE", .colour, [ClassColour]⟩
  | 0xDE => ⟨"OVER", .colour, [ClassColour]⟩
  | 0xDF => ⟨"OUT", .keyword, [ClassTwoNum]⟩
  | 0xE0 => ⟨"LPRINT", .keyword, [ClassItems]⟩
  | 0xE1 => ⟨"LLIST", .keyword, [ClassExprOpt]⟩
  | 0xE2 => ⟨"STOP", .keyword, [ClassNone]⟩
  | 0xE3 => ⟨"READ", .keyword, [ClassVarList]⟩
  | 0xE4 => ⟨"DATA", .colour, [ClassExprList]⟩
  | 0xE5 => ⟨"RESTORE", .keyword, [ClassExprOpt]⟩
  | 0xE6 => ⟨"NEW", .keyword, [ClassNone]⟩
  | 0xE7 => ⟨"BORDER", .keyword, [ClassNumExpr]⟩
  | 0xE8 => ⟨"CONTINUE", .keyword, [ClassNone]⟩
  | 0xE9 => ⟨"DIM", .keyword, [ClassLet, 40, ClassExprList, 41, 0]⟩
  | 0xEA => ⟨"REM", .keyword, [ClassItems]⟩
  | 0xEB => ⟨"FOR", .keyword, [ClassVarChar, 61, ClassNumExpr, 0xCC, ClassNumExpr, 0xCD, ClassNumExpr]⟩
  | 0xEC => ⟨"GO TO", .keyword, [ClassNumExpr]⟩
  | 0xED => ⟨"GO SUB", .keyword, [ClassNumExpr]⟩
  | 0xEE => ⟨"INPUT", .keyword, [ClassItems]⟩
  | 0xEF => ⟨"LOAD", .keyword, [ClassTape]⟩
  | 0xF0 => ⟨"LIST", .keyword, [ClassExprOpt]⟩
  | 0xF1 => ⟨"LET", .keyword, [ClassLet, 61, ClassLetExpr]⟩
  | 0xF2 => ⟨"PAUSE", .keyword, [ClassNumExpr]⟩
  | 0xF3 => ⟨"NEXT", .keyword, [ClassVarChar]⟩
  | 0xF4 => ⟨"POKE", .keyword, [ClassTwoNum]⟩
  | 0xF5 => ⟨"PRINT", .keyword, [ClassItems]⟩
  | 0xF6 => ⟨"PLOT", .keyword, [ClassTwoNumCol]⟩
  | 0xF7 => ⟨"RUN", .keyword, [ClassExprOpt]⟩
  | 0xF8 => ⟨"SAVE", .keyword, [ClassTape]⟩
  | 0xF9 => ⟨"RANDOMIZE", .keyword, [ClassExprOpt]⟩
  | 0xFA => ⟨"IF", .keyword, [ClassNumExpr, 0xCB]⟩
  | 0xFB => ⟨"CLS", .keyword, [ClassNone]⟩
  | 0xFC => ⟨"DRAW", .keyword, [ClassTwoNumCol, 44, ClassNumExpr]⟩
  | 0xFD => ⟨"CLEAR", .keyword, [ClassExprOpt]⟩
  | 0xFE => ⟨"RETURN", .keyword, [ClassNone]⟩
  | 0xFF => ⟨"COPY", .keyword, [ClassNone]⟩
  | _ =>
    if 32 ≤ i ∧ i < 128 then ⟨String.mk [Char.ofNat i], .typeless, []⟩
    else if 0x80 ≤ i ∧ i ≤ 0x87 then
      ⟨String.mk [Char.ofNat 123, Char.ofNat 45] ++ Nat.repr (i - 0x7F) ++ String.mk [Char.ofNat 125], .typeless, []⟩
    else if 0x88 ≤ i ∧ i ≤ 0x8F then
      ⟨String.mk [Char.ofNat 123, Char.ofNat 43] ++ Nat.repr (i - 0x87) ++ String.mk [Char.ofNat 125], .typeless, []⟩
    else if 0x90 ≤ i ∧ i ≤ 0xA2 then
      ⟨String.mk [Char.ofNat 123, Char.ofNat (65 + (i - 0x90)), Char.ofNat 125], .typeless, []⟩
    else ⟨"", .typeless, []⟩

/-- LineErr enumerates the error values produced while converting a
single line (the `fmt.Errorf` calls of parser.go, token_matcher.go,
numbers.go and the sequence expander).  The `ctx...` constructors mirror
the wrapping (`in REM: %w`, `in string: %w`, `parsing number: %w`,
`parsing binary: %w`, `expanding sequence: %w`) done in `convertLine`.
`fuelExhausted` is an artefact of the fuel-indexed embedding of the
scanning loops; the loops advance their position on every iteration, so
the fuel supplied by `convertLine` makes it unreachable. -/
inductive LineErr where
  | multipleDecimalPoints
  | invalidNumberFormat
  | floatOutOfRange (exp : Int)
  | expectedBinaryDigits
  | binaryTooLarge
  | atTabOutsidePrint (token : Nat)
  | ifInBrackets
  | letInBrackets
  | variableRequired
  | expressionRequired
  | singleCharVariableRequired
  | exprInDEFFN
  | mixedAlready48K
  | mixedAlready128K
  | udgNotIn128K (c : Char)
  | unclosedSequence
  | ctrlAtRow
  | ctrlAtCol
  | ctrlAtCount
  | ctrlTabRange
  | ctrlColourRange (cmd : String)
  | ctrlBinaryRange (cmd : String)
  | ctrlUnknown (cmd : String)
  | ctrlOutsidePrint (cmd : String)
  | ctrlParamCount (cmd : String)
  | tooManyClosingBrackets
  | mustStartWithNumber
  | lineNumberOutOfRange
  | noStatements
  | tooManyStatements
  | mismatchedBrackets (count : Int)
  | ctxREM (e : LineErr)
  | ctxString (e : LineErr)
  | ctxNumber (e : LineErr)
  | ctxBinary (e : LineErr)
  | ctxSequence (e : LineErr)
  | fuelExhausted
deriving DecidableEq, Repr

/-- ProgErr enumerates the whole-program errors of `Parse`: an
over-long input line, a per-line error wrapped with its 1-based source
line number, and the line-number ordering error. -/
inductive ProgErr where
  | lineTooLong (srcLine : Nat)
  | atLine (srcLine : Nat) (e : LineErr)
  | numberSmaller (num prev : Nat)
deriving DecidableEq, Repr

/-- ParserState mirrors the mutable fields of the source's `Parser`
struct (the `errorPrefix` string is omitted: it is error formatting
only).  `is48K` uses the source's encoding: -1 unknown, 0 means 128K,
1 means 48K. -/
structure ParserState where
  caseIndependent : Bool := false
  is48K : Int := -1
  lineCount : Nat := 0
  statementCount : Nat := 0
  previousLine : Int := -1
  bracketCount : Int := 0
  handlingDEFFN : Bool := false
  insideDEFFN : Bool := false
  tokenBracket : Bool := false
  inPrint : Bool := false
  currentParams : List Int := []
deriving DecidableEq, Repr

/-- A freshly constructed parser (`NewParser` with no options). -/
def st0 : ParserState := {}

/-- resetState mirrors the source's per-line state reset. -/
def resetState (st : ParserState) : ParserState :=
  { st with
    statementCount := 0
    bracketCount := 0
    handlingDEFFN := false
    insideDEFFN := false
    tokenBracket := false
    inPrint := false
    currentParams := [] }

/-! Numeric literal encoding (numbers.go). -/

/-- isDigit from parser.go. -/
def isDigitChar (c : Char) : Bool := decide (48 ≤ c.toNat ∧ c.toNat ≤ 57)

/-- Value of a non-empty string of decimal digits (the behaviour of
`strconv.Atoi` on an all-digit string; overflow of Go's 64-bit int is
not modelled, it cannot occur on the inputs the claims concern). -/
def digitsToNat (l : List Char) : Nat :=
  l.foldl (fun a c => a * 10 + (c.toNat - 48)) 0

/-- An exact rational carried as an integer pair (numerator and
positive denominator, not necessarily reduced).  This stands in for the
source's `float64` values: the arithmetic on it is exact, and on the
all-digit strings that reach the small-integer branch the two agree. -/
structure QV where
  num : Int
  den : Int
deriving DecidableEq, Repr

/-- The rational `(ip.fp : decimal)` read from an integer digit part
and a fraction digit part. -/
def qvOfDigits (ip fp : List Char) : QV :=
  ⟨(digitsToNat ip : Int) * (10 : Int) ^ fp.length + (digitsToNat fp : Int),
    (10 : Int) ^ fp.length⟩

/-- Multiplication by a signed power of ten (the exponent part). -/
def qvMulPow10 (q : QV) (e : Int) : QV :=
  if 0 ≤ e then ⟨q.num * (10 : Int) ^ e.toNat, q.den⟩
  else ⟨q.num, q.den * (10 : Int) ^ (-e).toNat⟩

/-- Floor of the rational (`math.Floor` of the exact value). -/
def qvFloor (q : QV) : Int := Int.fdiv q.num q.den

/-- Exact `floor(log2)` of a positive rational: for values at least one
this is `Nat.log` of the floor, otherwise the negated ceiling-log of
the reciprocal (`math.Floor(math.Log2(v))` in the source, exact). -/
def qlog2 (q : QV) : Int :=
  if q.den ≤ q.num then (Nat.log 2 (Int.fdiv q.num q.den).toNat : Int)
  else -(Nat.clog 2 (Int.fdiv (q.den + q.num - 1) q.num).toNat : Int)

/-- Modelled from the Go standard library: the number syntax accepted
by `strconv.ParseFloat` on the character set the scanner in
`parseNumber` can produce (digits, one optional dot, an optional
exponent part).  The mantissa must contain at least one digit and an
exponent marker must be followed by at least one digit, else the parse
fails. -/
def goParseFloatTail (ip fp r2 : List Char) : Option QV :=
  match r2 with
  | [] =>
    if ip = [] ∧ fp = [] then none
    else some (qvOfDigits ip fp)
  | c :: r3 =>
    if c = 'e' ∨ c = 'E' then
      let sgn : Int := if r3.headD ' ' = '-' then -1 else 1
      let r4 := if r3.headD ' ' = '+' ∨ r3.headD ' ' = '-' then r3.drop 1 else r3
      if r4 = [] ∨ ¬r4.all isDigitChar then none
      else if ip = [] ∧ fp = [] then none
      else some (qvMulPow10 (qvOfDigits ip fp) (sgn * (digitsToNat r4 : Int)))
    else none

def goParseFloat (s : List Char) : Option QV :=
  let ip := s.takeWhile isDigitChar
  let r1 := s.drop ip.length
  if r1.headD ' ' = '.' then
    goParseFloatTail ip ((r1.drop 1).takeWhile isDigitChar)
      ((r1.drop 1).drop ((r1.drop 1).takeWhile isDigitChar).length)
  else goParseFloatTail ip [] r1

/-- encodeSmallInt from numbers.go: clamp to [-65535, 65535], then
marker, small-integer flag, sign byte, low byte, high byte, zero. -/
def encodeSmallInt (val : Int) : List Nat :=
  let v1 : Int := if val < -65535 then -65535 else if val > 65535 then 65535 else val
  let sgn : Nat := if v1 < 0 then 0xFF else 0x00
  let m : Nat := v1.natAbs
  [0x0E, 0x00, sgn, m % 256, (m / 256) % 256, 0x00]

/-- Decoding of the six-byte small-integer layout documented in
numbers.go (marker, zero, sign byte 0x00 positive / 0xFF negative, low
magnitude byte, high magnitude byte, zero): the recovered value. -/
def decodeSmallInt (b : List Nat) : Int :=
  match b with
  | [_, _, s, lo, hi, _] =>
    let mag : Int := (lo : Int) + 256 * (hi : Int)
    if s = 0xFF then -mag else mag
  | _ => 0

/-- encodeFloat from numbers.go over exact rationals: marker byte, then
all zeros for the value zero; otherwise biased exponent and a 31-bit
rounded mantissa with the sign in the top bit of the first mantissa
byte.  The mantissa integer `floor((v / 2^e - 1) * 2^31 + 1/2)` is
computed on the pair form as `floor(((n - d) * 2^32 + d) / (2 * d))`
where `n / d = v / 2^e`; the byte casts `& 0x7F`, `& 0xFF` and `>> k`
are `% 128`, `% 256` and `/ 2^k`. -/
def encodeFloat (val : QV) : Except LineErr (List Nat) :=
  if val.num = 0 then .ok [0x0E, 0, 0, 0, 0, 0]
  else
    let sgn : Nat := if val.num < 0 then 0x80 else 0
    let v : QV := ⟨|val.num|, val.den⟩
    let e : Int := qlog2 v
    if e < -129 ∨ 126 < e then .error (.floatOutOfRange e)
    else
      let mant : QV :=
        if 0 ≤ e then ⟨v.num, v.den * (2 : Int) ^ e.toNat⟩
        else ⟨v.num * (2 : Int) ^ (-e).toNat, v.den⟩
      let mi : Nat :=
        (Int.fdiv ((mant.num - mant.den) * 4294967296 + mant.den) (2 * mant.den)).toNat
      .ok [0x0E, ((e + 0x81) % 256).toNat,
        (mi / 16777216) % 128 + sgn, (mi / 65536) % 256, (mi / 256) % 256, mi % 256]

/-- The digit-and-dot scan at the start of `parseNumber`: consumed
count and whether a decimal point was seen; a second decimal point is
the hard error the source raises. -/
def scanMantissa : List Char → Nat → Bool → Except LineErr (Nat × Bool)
  | [], i, hasDec => .ok (i, hasDec)
  | c :: rest, i, hasDec =>
    if isDigitChar c then scanMantissa rest (i + 1) hasDec
    else if c = '.' then
      if hasDec then .error .multipleDecimalPoints
      else scanMantissa rest (i + 1) true
    else .ok (i, hasDec)

/-- The optional exponent scan of `parseNumber`: number of characters
consumed after the mantissa and whether an exponent marker was seen. -/
def scanExponent (l : List Char) : Nat × Bool :=
  match l with
  | [] => (0, false)
  | c :: rest =>
    if c = 'e' ∨ c = 'E' then
      let signSkip : Nat :=
        match rest with
        | [] => 0
        | s :: _ => if s = '+' ∨ s = '-' then 1 else 0
      (1 + signSkip + ((rest.drop signSkip).takeWhile isDigitChar).length, true)
    else (0, false)

/-- parseNumber from numbers.go.  Result: `none` when no characters
were consumed (not a number), otherwise the encoded bytes and the
consumed length. -/
def parseNumber (text : List Char) : Except LineErr (Option (List Nat × Nat)) :=
  match scanMantissa text 0 false with
  | .error e => .error e
  | .ok (i0, hasDec) =>
    let ePart := scanExponent (text.drop i0)
    let i := i0 + ePart.1
    if i = 0 then .ok none
    else
      match goParseFloat (text.take i) with
      | none => .error .invalidNumberFormat
      | some val =>
        if ¬hasDec ∧ ¬ePart.2 ∧ -65535 ≤ qvFloor val ∧ qvFloor val ≤ 65535 then
          .ok (some (encodeSmallInt (qvFloor val), i))
        else
          match encodeFloat val with
          | .error e => .error e
          | .ok bytes => .ok (some (bytes, i))

/-- The digit loop of `parseBinaryNumber`: accumulates the value of the
leading 0/1 characters, raising the too-large error as soon as the
value exceeds 65535, and returns the value and digit count. -/
def binDigitsScan : List Char → Nat → Nat → Except LineErr (Nat × Nat)
  | [], value, count => .ok (value, count)
  | c :: rest, value, count =>
    if c = '0' ∨ c = '1' then
      let v := value * 2 + (c.toNat - 48)
      if 65535 < v then .error .binaryTooLarge
      else binDigitsScan rest v (count + 1)
    else .ok (value, count)

/-- parseBinaryNumber from numbers.go: a `BIN` prefix, optional spaces,
then binary digits, encoded as a small integer. -/
def parseBinaryNumber (text : List Char) : Except LineErr (Option (List Nat × Nat)) :=
  if text.length < 4 ∨ ¬(List.isPrefixOf ['B', 'I', 'N'] text) then .ok none
  else
    let sp := ((text.drop 3).takeWhile (fun c => c = ' ')).length
    let pos := 3 + sp
    if text.length ≤ pos then .error .expectedBinaryDigits
    else
      match binDigitsScan (text.drop pos) 0 0 with
      | .error e => .error e
      | .ok (value, count) =>
        if count = 0 then .error .expectedBinaryDigits
        else .ok (some (encodeSmallInt (value : Int), pos + count))

/-! Keyword matching (token_matcher.go). -/

/-- isAlpha from token_matcher.go. -/
def isAlpha (c : Char) : Bool :=
  decide ((65 ≤ c.toNat ∧ c.toNat ≤ 90) ∨ (97 ≤ c.toNat ∧ c.toNat ≤ 122))

/-- TokenMatch mirrors the source's `TokenMatch`: matched byte value
and length of the matched text. -/
structure TokenMatch where
  value : Nat
  length : Nat
deriving DecidableEq, Repr

/-- Length of the best candidate so far in the scan (0 when none), the
source's `longestMatch` variable. -/
def bestLen : Option (Nat × Nat) → Nat
  | none => 0
  | some (_, l) => l

/-- The prefix test of the scan loop: the token's display text is a
prefix of the remaining input, case-folded when the parser is
case-independent. -/
def matchesAt (ci : Bool) (text : List Char) (t : Nat) : Bool :=
  if ci then
    List.isPrefixOf ((TokenMap t).text.data.map Char.toUpper) (text.map Char.toUpper)
  else
    List.isPrefixOf (TokenMap t).text.data text

/-- The partial-word rejection of the scan loop: a candidate of length
`len` is rejected when the input continues and both the input character
the candidate ends on and the next input character are letters (the
defaults are never used: the test is guarded by `len < text.length` and
token texts are non-empty, so both indices are in range). -/
def boundaryReject (text : List Char) (len : Nat) : Bool :=
  if len < text.length then
    isAlpha (text.getD len ' ') && isAlpha (text.getD (len - 1) ' ')
  else false

/-- One iteration of the candidate scan in `matchToken`: skip tokens
with empty text, keep a longer prefix match unless the partial-word
rule rejects it. -/
def scanStep (ci : Bool) (text : List Char) (acc : Option (Nat × Nat)) (t : Nat) :
    Option (Nat × Nat) :=
  if (TokenMap t).text.data = [] then acc
  else if matchesAt ci text t then
    if (TokenMap t).text.data.length > bestLen acc then
      if boundaryReject text (TokenMap t).text.data.length then acc
      else some (t, (TokenMap t).text.data.length)
    else acc
  else acc

/-- The candidate byte values the source's comment describes: `Check
all tokens from 0xA3 (first keyword) up`, one pass over 0xA3..0xFF. -/
def tokenRange : List Nat := List.range' 0xA3 93

/-- One pass of the candidate scan over 0xA3..0xFF. -/
def scanTokens (ci : Bool) (text : List Char) : Option (Nat × Nat) :=
  tokenRange.foldl (scanStep ci text) none

/-- The literal scan loop of `matchToken` as written in the source:
`for token := byte(0xA3); token <= 0xFF; token++ { body }`.  The loop
counter is a Go `byte`, so the counter wraps modulo 256 and the
condition `token <= 0xFF` is compared against the largest byte value.
`fuel` bounds the number of iterations; the result is `some best` if
the loop exits within `fuel` iterations and `none` otherwise.
`matchTokenGo_never_exits` below shows the loop never exits: the rest
of this development therefore uses the single pass `scanTokens` the
source's comment describes. -/
def matchTokenGo (ci : Bool) (text : List Char) :
    Nat → Nat → Option (Nat × Nat) → Option (Option (Nat × Nat))
  | 0, _, _ => none
  | fuel + 1, token, best =>
    if token % 256 ≤ 0xFF then
      matchTokenGo ci text fuel ((token + 1) % 256) (scanStep ci text best (token % 256))
    else some best

/-- validateKeywordClass from token_matcher.go. -/
def validateKeywordClass (st : ParserState) (token : Nat) (cls : List Nat) :
    Except LineErr Unit :=
  if cls = [] then .ok ()
  else if token = 0xEA then .ok ()
  else
    match (if token = 0xFA then
            (if st.bracketCount > 0 then .error LineErr.ifInBrackets else .ok ())
          else if token = 0xF1 then
            (if st.bracketCount > 0 then .error LineErr.letInBrackets else .ok ())
          else .ok () : Except LineErr Unit) with
    | .error e => .error e
    | .ok _ =>
      let firstClass := cls.headD 0
      if firstClass = ClassLet then
        (if st.tokenBracket then .error .variableRequired else .ok ())
      else if firstClass = ClassLetExpr then
        (if ¬st.tokenBracket ∧ st.bracketCount = 0 then .error .expressionRequired else .ok ())
      else if firstClass = ClassVarChar then
        (if st.tokenBracket then .error .singleCharVariableRequired else .ok ())
      else .ok ()

/-- validateTokenContext from token_matcher.go. -/
def validateTokenContext (st : ParserState) (token : Nat) (ty : TokenType)
    (cls : List Nat) : Except LineErr Unit :=
  if token = 58 then .ok ()
  else if (token = 0xAC ∨ token = 0xAD) ∧ ¬st.inPrint then
    .error (.atTabOutsidePrint token)
  else
    match (if ty = TokenType.keyword then validateKeywordClass st token cls
          else .ok () : Except LineErr Unit) with
    | .error e => .error e
    | .ok _ =>
      if (ty = TokenType.numExpr ∨ ty = TokenType.strExpr) ∧
          st.handlingDEFFN ∧ ¬st.insideDEFFN then
        .error .exprInDEFFN
      else .ok ()

/-- handleProgramType from token_matcher.go.  The second branch keeps
the source's dead guard: the UDG byte values it computes for T and U
are `0x90 + 19 = 0xA3` and `0x90 + 20 = 0xA4`, which lie outside the
guarding range `0x90..0xA2`. -/
def handleProgramType (st : ParserState) (token : Nat) : Except LineErr ParserState :=
  if (token = 0xA3 ∨ token = 0xA4) ∧ st.is48K = 1 then .error .mixedAlready48K
  else
    let st1 := if (token = 0xA3 ∨ token = 0xA4) ∧ st.is48K = -1 then
        { st with is48K := 0 } else st
    if (0x90 ≤ token ∧ token ≤ 0xA2) ∧ (token = 0x90 + 19 ∨ token = 0x90 + 20) then
      if st1.is48K = 0 then .error .mixedAlready128K
      else if st1.is48K = -1 then .ok { st1 with is48K := 1 }
      else .ok st1
    else .ok st1

/-- matchToken from token_matcher.go, using the single candidate pass
`scanTokens` (see `matchTokenGo`): select the longest candidate, reject
it by token type against the keyword expectation, then run the context
validation and dialect detection, either of which can fail hard. -/
def matchToken (st : ParserState) (text : List Char) (wantKeyword : Bool) :
    Except LineErr (Option (TokenMatch × ParserState)) :=
  match scanTokens st.caseIndependent text with
  | none => .ok none
  | some (tok, longest) =>
    let ty := (TokenMap tok).type
    if wantKeyword ∧ ty ≠ TokenType.keyword ∧ ty ≠ TokenType.colour then .ok none
    else if ¬wantKeyword ∧ ty = TokenType.keyword then .ok none
    else
      match validateTokenContext st tok ty (TokenMap tok).keywordClass with
      | .error e => .error e
      | .ok _ =>
        match handleProgramType st tok with
        | .error e => .error e
        | .ok st' => .ok (some (⟨tok, longest⟩, st'))

/-! Escape-sequence expansion (sequences.go). -/

/-- SequenceMatch mirrors the source's `SequenceMatch`: encoded bytes
and length of the matched text. -/
structure SequenceMatch where
  bytes : List Nat
  length : Nat
deriving DecidableEq, Repr

/-- isSpace from token_matcher.go (space or tab). -/
def isSpaceGo (c : Char) : Bool := c = ' ' ∨ c = '\t'

/-- Modelled from the Go standard library: `strings.Fields`, splitting
on whitespace runs and dropping empty pieces (inputs here are ASCII, so
space and tab suffice). -/
def fieldsGo (s : List Char) : List (List Char) :=
  (s.splitOnP isSpaceGo).filter (fun p => p ≠ [])

/-- Modelled from the Go standard library: `strconv.Atoi` — an optional
sign followed by at least one digit, all digits (64-bit overflow is not
modelled; the escape parameters concerned are small). -/
def goAtoi (s : List Char) : Option Int :=
  match s with
  | [] => none
  | c :: rest =>
    let pair : Int × List Char :=
      if c = '+' then (1, rest) else if c = '-' then (-1, rest) else (1, s)
    if pair.2 ≠ [] ∧ pair.2.all isDigitChar then
      some (pair.1 * (digitsToNat pair.2 : Int))
    else none

/-- Hex digit value, as accepted by `strconv.ParseUint(seq, 16, 8)`. -/
def hexDigitVal (c : Char) : Option Nat :=
  if 48 ≤ c.toNat ∧ c.toNat ≤ 57 then some (c.toNat - 48)
  else if 97 ≤ c.toNat ∧ c.toNat ≤ 102 then some (c.toNat - 87)
  else if 65 ≤ c.toNat ∧ c.toNat ≤ 70 then some (c.toNat - 55)
  else none

/-- Upper-cased copy of a piece of text as a `String`, the source's
`strings.ToUpper` on ASCII. -/
def upperString (s : List Char) : String :=
  String.mk (s.map Char.toUpper)

/-- trySpecialCharacter from sequences.go. -/
def trySpecialCharacter (seq : List Char) (endIdx : Nat) :
    Except LineErr (Option SequenceMatch) :=
  if upperString seq = "(C)" then .ok (some ⟨[0x7F], endIdx + 1⟩)
  else if upperString seq = "CODE" then .ok (some ⟨[0xAF], endIdx + 1⟩)
  else if upperString seq = "CAT" then .ok (some ⟨[0xCF], endIdx + 1⟩)
  else .ok none

/-- tryUDG from sequences.go: a single letter A-U maps into the UDG
byte range 0x90..; the letters T and U are 48K-only and drive the same
dialect state as `handleProgramType`. -/
def tryUDG (st : ParserState) (seq : List Char) (endIdx : Nat) :
    Except LineErr (Option (SequenceMatch × ParserState)) :=
  if seq.length ≠ 1 ∨ ¬isAlpha (seq.headD ' ') then .ok none
  else
    let udg := (seq.headD ' ').toUpper
    if udg.toNat < 65 ∨ 85 < udg.toNat then .ok none
    else
      let m : SequenceMatch := ⟨[0x90 + (udg.toNat - 65)], endIdx + 1⟩
      if udg = 'T' ∨ udg = 'U' then
        if st.is48K = -1 then .ok (some (m, { st with is48K := 1 }))
        else if st.is48K = 0 then .error (.udgNotIn128K udg)
        else .ok (some (m, st))
      else .ok (some (m, st))

/-- tryBlockGraphics from sequences.go: `+n` maps into 0x88.. with
value `(n mod 8) xor 7`, `-n` into 0x80.. with value `n mod 8`. -/
def tryBlockGraphics (seq : List Char) (endIdx : Nat) :
    Except LineErr (Option SequenceMatch) :=
  if seq.length ≠ 2 then .ok none
  else
    let pfx : Nat :=
      if seq.headD ' ' = '+' then 0x88
      else if seq.headD ' ' = '-' then 0x80
      else 0
    if pfx = 0 then .ok none
    else
      match goAtoi (seq.drop 1) with
      | none => .ok none
      | some n =>
        if n < 1 ∨ 8 < n then .ok none
        else
          let nn := n.toNat
          let value : Nat := if pfx = 0x88 then Nat.xor (nn % 8) 7 else nn % 8
          .ok (some ⟨[pfx + value], endIdx + 1⟩)

/-- tryHexValue from sequences.go: exactly two hex digits emitted as
one raw byte. -/
def tryHexValue (seq : List Char) (endIdx : Nat) :
    Except LineErr (Option SequenceMatch) :=
  if seq.length ≠ 2 then .ok none
  else
    match hexDigitVal (seq.getD 0 ' '), hexDigitVal (seq.getD 1 ' ') with
    | some h, some l => .ok (some ⟨[h * 16 + l], endIdx + 1⟩)
    | _, _ => .ok none

/-- validateControlParam from sequences.go: per-command range checks,
with unknown commands rejected here (reached only when at least one
integer parameter is present). -/
def validateControlParam (cmd : String) (param : Int) (paramIndex : Nat) :
    Except LineErr Unit :=
  if cmd = "AT" then
    if paramIndex = 0 then
      (if param < 0 ∨ 23 < param then .error .ctrlAtRow else .ok ())
    else if paramIndex = 1 then
      (if param < 0 ∨ 31 < param then .error .ctrlAtCol else .ok ())
    else .error .ctrlAtCount
  else if cmd = "TAB" then
    (if param < 0 ∨ 31 < param then .error .ctrlTabRange else .ok ())
  else if cmd = "INK" ∨ cmd = "PAPER" then
    (if param < 0 ∨ 7 < param then .error (.ctrlColourRange cmd) else .ok ())
  else if cmd = "FLASH" ∨ cmd = "BRIGHT" ∨ cmd = "INVERSE" ∨ cmd = "OVER" then
    (if param < 0 ∨ 1 < param then .error (.ctrlBinaryRange cmd) else .ok ())
  else .error (.ctrlUnknown cmd)

/-- Byte cast of a validated control parameter (`byte(params[i])`). -/
def intToByte (n : Int) : Nat := (n % 256).toNat

/-- getControlBytes from sequences.go: AT/TAB require a PRINT context,
each command checks its parameter count, unknown commands yield no
match (`nil, nil`). -/
def getControlBytes (st : ParserState) (cmd : String) (params : List Int) :
    Except LineErr (Option (List Nat)) :=
  if (cmd = "AT" ∨ cmd = "TAB") ∧ ¬st.inPrint then .error (.ctrlOutsidePrint cmd)
  else if cmd = "AT" then
    if params.length ≠ 2 then .error (.ctrlParamCount cmd)
    else .ok (some [0x16, intToByte (params.getD 0 0), intToByte (params.getD 1 0)])
  else if cmd = "TAB" then
    if params.length ≠ 1 then .error (.ctrlParamCount cmd)
    else .ok (some [0x17, intToByte (params.getD 0 0)])
  else if cmd = "INK" then
    if params.length ≠ 1 then .error (.ctrlParamCount cmd)
    else .ok (some [0x10, intToByte (params.getD 0 0)])
  else if cmd = "PAPER" then
    if params.length ≠ 1 then .error (.ctrlParamCount cmd)
    else .ok (some [0x11, intToByte (params.getD 0 0)])
  else if cmd = "FLASH" then
    if params.length ≠ 1 then .error (.ctrlParamCount cmd)
    else .ok (some [0x12, intToByte (params.getD 0 0)])
  else if cmd = "BRIGHT" then
    if params.length ≠ 1 then .error (.ctrlParamCount cmd)
    else .ok (some [0x13, intToByte (params.getD 0 0)])
  else if cmd = "INVERSE" then
    if params.length ≠ 1 then .error (.ctrlParamCount cmd)
    else .ok (some [0x14, intToByte (params.getD 0 0)])
  else if cmd = "OVER" then
    if params.length ≠ 1 then .error (.ctrlParamCount cmd)
    else .ok (some [0x15, intToByte (params.getD 0 0)])
  else .ok none

/-- The parameter loop of `tryControlSequence`: each whitespace field
must parse as an integer (else the whole sequence is not an escape) and
is then range-checked, which can fail hard.  `paramIndex` is the number
of parameters accepted so far. -/
def parseParams (cmd : String) : List (List Char) → Nat → List Int →
    Except LineErr (Option (List Int))
  | [], _, acc => .ok (some acc)
  | p :: rest, paramIndex, acc =>
    match goAtoi p with
    | none => .ok none
    | some n =>
      match validateControlParam cmd n paramIndex with
      | .error e => .error e
      | .ok _ => parseParams cmd rest (paramIndex + 1) (acc ++ [n])

/-- tryControlSequence from sequences.go.  The source clears and
refills `p.currentParams` through a pointer even when a later non-
integer field makes it return `nil, nil`; `currentParams` is never read
anywhere in the source, so this model keeps the new parameter list only
on a successful match. -/
def tryControlSequence (st : ParserState) (seq : List Char) (endIdx : Nat) :
    Except LineErr (Option (SequenceMatch × ParserState)) :=
  match fieldsGo seq with
  | [] => .ok none
  | cmdPart :: paramParts =>
    let cmd := upperString cmdPart
    match (if paramParts = [] then .ok (some []) else parseParams cmd paramParts 0 [] :
        Except LineErr (Option (List Int))) with
    | .error e => .error e
    | .ok none => .ok none
    | .ok (some params) =>
      match getControlBytes st cmd params with
      | .error e => .error e
      | .ok none => .ok none
      | .ok (some bytes) =>
        let st' := if paramParts = [] then st else { st with currentParams := params }
        .ok (some (⟨bytes, endIdx + 1⟩, st'))

/-- adjustSpaces from sequences.go: when `stripSpaces` is set, extend
the consumed length over the literal spaces following the sequence. -/
def adjustSpaces (m : SequenceMatch) (text : List Char) (stripSpaces : Bool) :
    SequenceMatch :=
  if stripSpaces then
    { m with length := m.length + ((text.drop m.length).takeWhile (fun c => c = ' ')).length }
  else m

/-- expandSequence from sequences.go: a brace-delimited escape tried
against the five sub-grammars in source order; no closing brace within
a text of more than 10 characters is a hard error, otherwise plain
text. -/
def expandSequence (st : ParserState) (text : List Char) (stripSpaces : Bool) :
    Except LineErr (Option (SequenceMatch × ParserState)) :=
  if text.headD ' ' ≠ Char.ofNat 123 then .ok none
  else
    match text.findIdx? (fun c => c = Char.ofNat 125) with
    | none => if text.length > 10 then .error .unclosedSequence else .ok none
    | some endIdx =>
      let seq := (text.take endIdx).drop 1
      if seq = [] then .ok none
      else
        match trySpecialCharacter seq endIdx with
        | .error e => .error e
        | .ok (some m) => .ok (some (adjustSpaces m text stripSpaces, st))
        | .ok none =>
        match tryUDG st seq endIdx with
        | .error e => .error e
        | .ok (some (m, st')) => .ok (some (adjustSpaces m text stripSpaces, st'))
        | .ok none =>
        match tryBlockGraphics seq endIdx with
        | .error e => .error e
        | .ok (some m) => .ok (some (adjustSpaces m text stripSpaces, st))
        | .ok none =>
        match tryHexValue seq endIdx with
        | .error e => .error e
        | .ok (some m) => .ok (some (adjustSpaces m text stripSpaces, st))
        | .ok none =>
        match tryControlSequence st seq endIdx with
        | .error e => .error e
        | .ok (some (m, st')) => .ok (some (adjustSpaces m text stripSpaces, st'))
        | .ok none => .ok none

/-! Line and program assembly (parser.go). -/

/-- The space-skipping loop at the top of each `convertLine`
iteration. -/
def skipSpacesFrom (text : List Char) (pos : Nat) : Nat :=
  pos + ((text.drop pos).takeWhile (fun c => c = ' ')).length

/-- The copy-to-end-of-line loop entered after a REM keyword: escape
sequences still expand, everything else is copied verbatim.  `fuel`
bounds the iterations; every iteration advances `pos`, so the caller's
`text.length + 1` always suffices. -/
def remLoop (text : List Char) : Nat → Nat → ParserState → List Nat →
    Except LineErr (List Nat × ParserState)
  | 0, _, _, _ => .error .fuelExhausted
  | fuel + 1, pos, st, out =>
    if text.length ≤ pos then .ok (out, st)
    else
      match expandSequence st (text.drop pos) false with
      | .error e => .error (.ctxREM e)
      | .ok (some (m, st')) => remLoop text fuel (pos + m.length) st' (out ++ m.bytes)
      | .ok none => remLoop text fuel (pos + 1) st (out ++ [(text.getD pos ' ').toNat])

/-- One iteration of convertLine's character loop from parser.go,
entered with the spaces already skipped; `recur` is the continuation of
the loop (the next iteration, with one unit of fuel consumed).  The
locals `inString`, `inRem` and `expectKeyword` are passed explicitly;
`out` is the output buffer.  The `58` case reproduces the source's
`case ':'` statement-separator branch — including that it skips the
byte write — although the matcher never returns a colon (see the
claim 1 theorem below). -/
def convertLineBody (text : List Char)
    (recur : Nat → ParserState → Bool → Bool → Bool → List Nat →
      Except LineErr (List Nat × ParserState))
    (pos : Nat) (st : ParserState) (inString inRem expectKeyword : Bool)
    (out : List Nat) : Except LineErr (List Nat × ParserState) :=
  if text.length ≤ pos then .ok (out, st)
  else if inRem then remLoop text (text.length + 1) pos st out
  else if inString then
        if text.getD pos ' ' = '"' then
          recur (pos + 1) st false inRem expectKeyword (out ++ [34])
        else
          match expandSequence st (text.drop pos) false with
          | .error e => .error (.ctxString e)
          | .ok (some (m, st')) =>
            recur (pos + m.length) st' true inRem expectKeyword
              (out ++ m.bytes)
          | .ok none =>
            recur (pos + 1) st true inRem expectKeyword
              (out ++ [(text.getD pos ' ').toNat])
      else if text.getD pos ' ' = '"' then
        recur (pos + 1) st true inRem expectKeyword (out ++ [34])
      else if text.getD pos ' ' = '(' then
        let st1 := { st with bracketCount := st.bracketCount + 1 }
        let st2 := if st1.handlingDEFFN ∧ ¬st1.insideDEFFN then
            { st1 with insideDEFFN := true } else st1
        recur (pos + 1) { st2 with tokenBracket := true }
          inString inRem expectKeyword (out ++ [40])
      else if text.getD pos ' ' = ')' then
        let st1 := { st with bracketCount := st.bracketCount - 1 }
        if st1.bracketCount < 0 then .error .tooManyClosingBrackets
        else
          let pr : List Nat × ParserState :=
            if st1.handlingDEFFN ∧ st1.insideDEFFN then
              (out ++ [0x0E, 0, 0, 0, 0, 0],
                { st1 with insideDEFFN := false, handlingDEFFN := false })
            else (out, st1)
          recur (pos + 1) { pr.2 with tokenBracket := false }
            inString inRem expectKeyword (pr.1 ++ [41])
      else
        match matchToken st (text.drop pos) expectKeyword with
        | .error e => .error e
        | .ok (some (m, st')) =>
          if m.value = 58 then
            recur (pos + 1)
              { st' with
                statementCount := st'.statementCount + 1
                inPrint := false
                currentParams := [] }
              inString inRem true out
          else
            let st2 :=
              if m.value = 0xCE then { st' with handlingDEFFN := true }
              else if m.value = 0xF5 ∨ m.value = 0xE0 then { st' with inPrint := true }
              else st'
            recur (pos + m.length) st2 inString
              (inRem ∨ m.value = 0xEA) false (out ++ [m.value])
        | .ok none =>
        match parseNumber (text.drop pos) with
        | .error e => .error (.ctxNumber e)
        | .ok (some (bytes, consumed)) =>
          recur (pos + consumed) st inString inRem false (out ++ bytes)
        | .ok none =>
        match parseBinaryNumber (text.drop pos) with
        | .error e => .error (.ctxBinary e)
        | .ok (some (bytes, consumed)) =>
          recur (pos + consumed) st inString inRem false (out ++ bytes)
        | .ok none =>
        match expandSequence st (text.drop pos) true with
        | .error e => .error (.ctxSequence e)
        | .ok (some (m, st')) =>
          recur (pos + m.length) st' inString inRem expectKeyword
            (out ++ m.bytes)
        | .ok none =>
          recur (pos + 1) st inString inRem
            (if text.getD pos ' ' ≠ ' ' then false else expectKeyword)
            (out ++ [(text.getD pos ' ').toNat])

/-- convertLine's character loop from parser.go: per iteration, stop
at end of text, skip spaces unless inside a string or a REM comment,
stop again if that reached the end, then run one dispatch step.  `fuel`
bounds the number of iterations; every iteration advances the position,
so the `text.length + 1` supplied by `convertLine` always suffices. -/
def convertLineAux (text : List Char) : Nat → Nat → ParserState → Bool → Bool → Bool →
    List Nat → Except LineErr (List Nat × ParserState)
  | 0, _, _, _, _, _, _ => .error .fuelExhausted
  | fuel + 1, pos0, st, inString, inRem, expectKeyword, out =>
    if text.length ≤ pos0 then .ok (out, st)
    else
      convertLineBody text
        (fun p s a b c o => convertLineAux text fuel p s a b c o)
        (if ¬inString ∧ ¬inRem then skipSpacesFrom text pos0 else pos0)
        st inString inRem expectKeyword out

/-- convertLine from parser.go: the character loop started in normal
mode with a keyword expected. -/
def convertLine (st : ParserState) (text : List Char) :
    Except LineErr (List Nat × ParserState) :=
  convertLineAux text (text.length + 1) 0 st false false true []

/-- Modelled from the Go standard library: `strings.TrimSpace` on the
ASCII inputs involved (space and tab). -/
def trimSpace (l : List Char) : List Char :=
  ((l.dropWhile isSpaceGo).reverse.dropWhile isSpaceGo).reverse

/-- extractLineNumber from parser.go: trim, take the leading digits as
the line number, return the trimmed remainder (`strconv.Atoi` cannot
fail on a non-empty digit string; its 64-bit overflow is not
modelled). -/
def extractLineNumber (line : List Char) : Except LineErr (Nat × List Char) :=
  let l := trimSpace line
  let digits := l.takeWhile isDigitChar
  if digits = [] then .error .mustStartWithNumber
  else .ok (digitsToNat digits, trimSpace (l.drop digits.length))

/-- parseLine from parser.go: line number and range check, non-empty
remainder, per-line state reset, conversion, statement and bracket
checks, then the record `lineNumber (2 bytes little endian), payload
length (2 bytes), payload, 0x0D`. -/
def parseLine (st : ParserState) (line : List Char) :
    Except LineErr (List Nat × Nat × ParserState) :=
  match extractLineNumber line with
  | .error e => .error e
  | .ok (lineNum, rest) =>
    if 9999 < lineNum then .error .lineNumberOutOfRange
    else if rest = [] then .error .noStatements
    else
      match convertLine (resetState st) rest with
      | .error e => .error e
      | .ok (payload, st') =>
        if 127 < st'.statementCount then .error .tooManyStatements
        else if st'.bracketCount = 0 then
          .ok ([lineNum % 256, (lineNum / 256) % 256,
                (payload ++ [0x0D]).length % 256, ((payload ++ [0x0D]).length / 256) % 256] ++
              (payload ++ [0x0D]),
            lineNum, st')
        else .error (.mismatchedBrackets st'.bracketCount)

/-- The skip test of `Parse`: blank lines and lines whose first
non-space character is the host comment marker `#`. -/
def isSkipped (line : List Char) : Bool :=
  trimSpace line = [] ∨ (trimSpace line).headD ' ' = '#'

/-- The line loop of `Parse` from parser.go: line counting, length
cap, skipping, per-line parsing, the ordering check against the
previous non-skipped line and the duplicate warning (the source prints
the warning to standard output; it is returned here as the list of
duplicated line numbers). -/
def parseProgramAux : List (List Char) → ParserState → List Nat → List Nat →
    Except ProgErr (List Nat) × List Nat
  | [], _, warnings, out => (.ok out, warnings)
  | line :: restLines, st, warnings, out =>
    let st := { st with lineCount := st.lineCount + 1 }
    if 1024 < line.length then (.error (.lineTooLong st.lineCount), warnings)
    else if isSkipped line then parseProgramAux restLines st warnings out
    else
      match parseLine st line with
      | .error e => (.error (.atLine st.lineCount e), warnings)
      | .ok (bytes, lineNum, st') =>
        if 0 ≤ st'.previousLine ∧ (lineNum : Int) < st'.previousLine then
          (.error (.numberSmaller lineNum st'.previousLine.toNat), warnings)
        else
          let warnings' :=
            if 0 ≤ st'.previousLine ∧ (lineNum : Int) = st'.previousLine then
              warnings ++ [lineNum]
            else warnings
          parseProgramAux restLines { st' with previousLine := (lineNum : Int) }
            warnings' (out ++ bytes)

/-- Parse from parser.go: process the input lines in order from a
fresh per-run state. -/
def ParseProgram (ci : Bool) (lines : List (List Char)) :
    Except ProgErr (List Nat) × List Nat :=
  parseProgramAux lines { st0 with caseIndependent := ci } [] []

/-- The line numbers of the non-skipped lines as `extractLineNumber`
reads them, in input order — the sequence the ordering check of `Parse`
is about. -/
def extractedNumbers (lines : List (List Char)) : List Nat :=
  lines.filterMap (fun l =>
    if isSkipped l then none
    else
      match extractLineNumber l with
      | .ok p => some p.1
      | .error _ => none)

end ZxBasic

deriving instance DecidableEq for Except

namespace ZxBasic

/-! Theorems.  First the lemmas about the candidate scan. -/

/-- The literal matcher loop never exits: its condition compares a
byte-valued counter against the largest byte value. -/
theorem matchTokenGo_never_exits (ci : Bool) (text : List Char) :
    ∀ fuel token best, matchTokenGo ci text fuel token best = none := by
  intro fuel
  induction fuel with
  | zero => intro token best; rfl
  | succ f ih =>
    intro token best
    have h : token % 256 ≤ 0xFF := Nat.le_of_lt_succ (Nat.mod_lt _ (by norm_num))
    simp only [matchTokenGo, if_pos h]
    exact ih _ _

/-- One scan step either keeps the accumulator or installs the visited
token with its text length. -/
theorem scanStep_eq_or (ci : Bool) (text : List Char) (acc : Option (Nat × Nat)) (t : Nat) :
    scanStep ci text acc t = acc ∨
      scanStep ci text acc t = some (t, (TokenMap t).text.data.length) := by
  unfold scanStep
  split_ifs <;> simp

/-- The best length never decreases along a scan step. -/
theorem bestLen_scanStep_le (ci : Bool) (text : List Char) (acc : Option (Nat × Nat))
    (t : Nat) : bestLen acc ≤ bestLen (scanStep ci text acc t) := by
  unfold scanStep
  split_ifs with h1 h2 h3 h4
  · exact le_refl _
  · exact le_refl _
  · exact le_of_lt h3
  · exact le_refl _
  · exact le_refl _

/-- The best length never decreases along the whole scan. -/
theorem scanFold_le (ci : Bool) (text : List Char) :
    ∀ (l : List Nat) (acc : Option (Nat × Nat)),
      bestLen acc ≤ bestLen (l.foldl (scanStep ci text) acc) := by
  intro l
  induction l with
  | nil => intro acc; exact le_refl _
  | cons a l ih =>
    intro acc
    exact le_trans (bestLen_scanStep_le ci text acc a) (ih _)

/-- Any candidate that matches, has text, and passes the partial-word
rule bounds the final best length from below. -/
theorem scanFold_bound (ci : Bool) (text : List Char) (t : Nat)
    (h1 : (TokenMap t).text.data ≠ [])
    (h2 : matchesAt ci text t = true)
    (h3 : boundaryReject text (TokenMap t).text.data.length = false) :
    ∀ (l : List Nat) (acc : Option (Nat × Nat)), t ∈ l →
      (TokenMap t).text.data.length ≤ bestLen (l.foldl (scanStep ci text) acc) := by
  intro l
  induction l with
  | nil => intro acc hmem; cases hmem
  | cons a l ih =>
    intro acc hmem
    rcases List.mem_cons.mp hmem with rfl | hmem
    · have hstep : (TokenMap t).text.data.length ≤ bestLen (scanStep ci text acc t) := by
        unfold scanStep
        rw [if_neg h1, if_pos h2]
        by_cases hlt : (TokenMap t).text.data.length > bestLen acc
        · have hb : ¬(boundaryReject text (TokenMap t).text.data.length = true) := by
            rw [h3]
            simp
          rw [if_pos hlt, if_neg hb]
          simp only [bestLen]
          exact le_refl _
        · rw [if_neg hlt]
          omega
      exact le_trans hstep (scanFold_le ci text l _)
    · exact ih _ hmem

/-- A token produced by the scan was either already in the accumulator
or is one of the scanned byte values. -/
theorem scanFold_source (ci : Bool) (text : List Char) :
    ∀ (l : List Nat) (acc : Option (Nat × Nat)) (p : Nat × Nat),
      l.foldl (scanStep ci text) acc = some p → acc = some p ∨ p.1 ∈ l := by
  intro l
  induction l with
  | nil => intro acc p h; exact Or.inl h
  | cons a l ih =>
    intro acc p h
    rcases ih _ _ h with hstep | hmem
    · rcases scanStep_eq_or ci text acc a with he | he
      · rw [he] at hstep
        exact Or.inl hstep
      · rw [he] at hstep
        obtain rfl : p = (a, (TokenMap a).text.data.length) := by
          exact (Option.some_inj.mp hstep).symm
        exact Or.inr (List.mem_cons_self a l)
    · exact Or.inr (List.mem_cons_of_mem a hmem)

/-- A successful scan yields a byte value in the scanned range, in
particular at least 0xA3. -/
theorem scanTokens_ge (ci : Bool) (text : List Char) (tok len : Nat)
    (h : scanTokens ci text = some (tok, len)) : 0xA3 ≤ tok := by
  rcases scanFold_source ci text tokenRange none (tok, len) h with hc | hm
  · cases hc
  · have := List.mem_range'_1.mp hm
    omega

/-! Preservation of `previousLine` through line conversion: no function
below the program loop writes the previous-line field, so the ordering
check in `Parse` always compares against the number of the previous
non-skipped line. -/

theorem handleProgramType_prev (st : ParserState) (token : Nat) (st' : ParserState)
    (h : handleProgramType st token = .ok st') : st'.previousLine = st.previousLine := by
  unfold handleProgramType at h
  dsimp only at h
  split_ifs at h
  all_goals try (exfalso; omega)
  all_goals cases h
  all_goals simp

theorem matchToken_prev (st : ParserState) (text : List Char) (wk : Bool)
    (m : TokenMatch) (st' : ParserState)
    (h : matchToken st text wk = .ok (some (m, st'))) :
    st'.previousLine = st.previousLine := by
  unfold matchToken at h
  split at h
  · cases h
  · dsimp only at h
    split_ifs at h
    · cases h
    · cases h
    · split at h
      · cases h
      · split at h
        · cases h
        · next st1 heq =>
          cases h
          exact handleProgramType_prev st _ _ heq

theorem tryUDG_prev (st : ParserState) (seq : List Char) (endIdx : Nat)
    (m : SequenceMatch) (st' : ParserState)
    (h : tryUDG st seq endIdx = .ok (some (m, st'))) :
    st'.previousLine = st.previousLine := by
  unfold tryUDG at h
  dsimp only at h
  split_ifs at h
  all_goals cases h
  all_goals simp

theorem tryControlSequence_prev (st : ParserState) (seq : List Char) (endIdx : Nat)
    (m : SequenceMatch) (st' : ParserState)
    (h : tryControlSequence st seq endIdx = .ok (some (m, st'))) :
    st'.previousLine = st.previousLine := by
  unfold tryControlSequence at h
  split at h
  · cases h
  · dsimp only at h
    split at h
    · cases h
    · cases h
    · split at h
      · cases h
      · cases h
      · split_ifs at h <;> (cases h; simp)

theorem expandSequence_prev (st : ParserState) (text : List Char) (ss : Bool)
    (m : SequenceMatch) (st' : ParserState)
    (h : expandSequence st text ss = .ok (some (m, st'))) :
    st'.previousLine = st.previousLine := by
  unfold expandSequence at h
  split at h
  · cases h
  · split at h
    · split at h
      · cases h
      · cases h
    · dsimp only at h
      split at h
      · cases h
      · split at h
        · cases h
        · cases h
          rfl
        · split at h
          · cases h
          · next m1 st1 heq =>
            cases h
            exact tryUDG_prev st _ _ _ _ heq
          · split at h
            · cases h
            · cases h
              rfl
            · split at h
              · cases h
              · cases h
                rfl
              · split at h
                · cases h
                · next m1 st1 heq =>
                  cases h
                  exact tryControlSequence_prev st _ _ _ _ heq
                · cases h

theorem remLoop_prev (text : List Char) :
    ∀ fuel pos st out res st',
      remLoop text fuel pos st out = .ok (res, st') →
      st'.previousLine = st.previousLine := by
  intro fuel
  induction fuel with
  | zero =>
    intro pos st out res st' h
    cases h
  | succ f ih =>
    intro pos st out res st' h
    rw [remLoop] at h
    split_ifs at h
    · cases h
      rfl
    · split at h
      · cases h
      · next m st1 heq =>
        rw [ih _ _ _ _ _ h]
        exact expandSequence_prev st _ _ _ _ heq
      · exact ih _ _ _ _ _ h

theorem convertLineBody_prev (text : List Char)
    (recur : Nat → ParserState → Bool → Bool → Bool → List Nat →
      Except LineErr (List Nat × ParserState))
    (hr : ∀ pos st a b c out res st', recur pos st a b c out = .ok (res, st') →
      st'.previousLine = st.previousLine) :
    ∀ pos st a b c out res st',
      convertLineBody text recur pos st a b c out = .ok (res, st') →
      st'.previousLine = st.previousLine := by
  intro pos st a b c out res st' h
  unfold convertLineBody at h
  split at h
  · cases h
    rfl
  · split at h
    · exact remLoop_prev text _ _ _ _ _ _ h
    · split at h
      · split at h
        · exact hr _ _ _ _ _ _ _ _ h
        · split at h
          · cases h
          · next m1 st1 heq =>
            rw [hr _ _ _ _ _ _ _ _ h]
            exact expandSequence_prev st _ _ _ _ heq
          · exact hr _ _ _ _ _ _ _ _ h
      · split at h
        · exact hr _ _ _ _ _ _ _ _ h
        · split at h
          · dsimp only at h
            rw [hr _ _ _ _ _ _ _ _ h]
            split_ifs <;> rfl
          · split at h
            · dsimp only at h
              split at h
              · cases h
              · rw [hr _ _ _ _ _ _ _ _ h]
                split_ifs <;> rfl
            · split at h
              · cases h
              · next m1 st1 heq =>
                split at h
                · rw [hr _ _ _ _ _ _ _ _ h]
                  simpa using matchToken_prev st _ _ _ _ heq
                · dsimp only at h
                  rw [hr _ _ _ _ _ _ _ _ h]
                  have h2 := matchToken_prev st _ _ _ _ heq
                  split_ifs <;> simpa using h2
              · split at h
                · cases h
                · exact hr _ _ _ _ _ _ _ _ h
                · split at h
                  · cases h
                  · exact hr _ _ _ _ _ _ _ _ h
                  · split at h
                    · cases h
                    · next m1 st1 heq =>
                      rw [hr _ _ _ _ _ _ _ _ h]
                      exact expandSequence_prev st _ _ _ _ heq
                    · exact hr _ _ _ _ _ _ _ _ h

theorem convertLineAux_prev (text : List Char) :
    ∀ fuel pos st insg inr ek out res st',
      convertLineAux text fuel pos st insg inr ek out = .ok (res, st') →
      st'.previousLine = st.previousLine := by
  intro fuel
  induction fuel with
  | zero => intro pos st insg inr ek out res st' h; cases h
  | succ f ih =>
    intro pos st insg inr ek out res st' h
    rw [convertLineAux] at h
    split at h
    · cases h
      rfl
    · exact convertLineBody_prev text _ (fun p s a1 b c o r s2 hh => ih p s a1 b c o r s2 hh)
        _ _ _ _ _ _ _ _ h

/-- A successful `parseLine` leaves `previousLine` untouched and
returns exactly the line number `extractLineNumber` reads. -/
theorem parseLine_ok_facts (st : ParserState) (line : List Char)
    (b : List Nat) (num : Nat) (st' : ParserState)
    (h : parseLine st line = .ok (b, num, st')) :
    st'.previousLine = st.previousLine ∧
      ∃ rest, extractLineNumber line = .ok (num, rest) := by
  unfold parseLine at h
  cases hex : extractLineNumber line with
  | error e =>
    rw [hex] at h
    cases h
  | ok p =>
    obtain ⟨lineNum, rest⟩ := p
    rw [hex] at h
    split at h
    · next heqq => cases heqq
    · next lineNum2 rest2 heqq =>
      cases heqq
      split at h
      · cases h
      · split at h
        · cases h
        · split at h
          · cases h
          · next payload st1 heq2 =>
            split at h
            · cases h
            · split at h
              · cases h
                refine ⟨?_, rest, rfl⟩
                unfold convertLine at heq2
                have hp := convertLineAux_prev _ _ _ _ _ _ _ _ _ _ heq2
                rw [hp]
                simp [resetState]
              · cases h

/-- Along the program loop, an ordering error can only be produced
when the numbers of the non-skipped lines are not non-decreasing: the
generalized invariant is that the previous-line field is at most the
next extracted number. -/
theorem parseProgramAux_no_order :
    ∀ (lines : List (List Char)) (st : ParserState) (w out : List Nat),
      (extractedNumbers lines).Chain' (· ≤ ·) →
      (∀ n, (extractedNumbers lines).head? = some n → st.previousLine ≤ (n : Int)) →
      ∀ n p, (parseProgramAux lines st w out).1 ≠ .error (.numberSmaller n p) := by
  intro lines
  induction lines with
  | nil =>
    intro st w out hc hh n p
    simp [parseProgramAux]
  | cons line rest ih =>
    intro st w out hc hh n p
    rw [parseProgramAux]
    dsimp only
    split_ifs with hlong hskip
    · simp
    · have he : extractedNumbers (line :: rest) = extractedNumbers rest := by
        simp [extractedNumbers, List.filterMap_cons, hskip]
      rw [he] at hc hh
      refine ih _ _ _ hc ?_ n p
      intro n2 h2
      exact hh n2 h2
    · split
      · simp
      · next bytes lineNum st1 heq =>
        obtain ⟨hprev, rest0, hex⟩ := parseLine_ok_facts _ _ _ _ _ heq
        have he : extractedNumbers (line :: rest) = lineNum :: extractedNumbers rest := by
          simp [extractedNumbers, List.filterMap_cons, hskip, hex]
        rw [he] at hc hh
        have hbound : st.previousLine ≤ (lineNum : Int) := hh lineNum rfl
        have hch := List.chain'_cons'.mp hc
        have hpr : st1.previousLine = st.previousLine := by rw [hprev]
        split_ifs with hcmp hdup
        · exfalso
          omega
        · refine ih _ _ _ hch.2 ?_ n p
          intro n2 h2
          have hle := hch.1 n2 (by simpa using h2)
          show (lineNum : Int) ≤ (n2 : Int)
          exact_mod_cast hle
        · refine ih _ _ _ hch.2 ?_ n p
          intro n2 h2
          have hle := hch.1 n2 (by simpa using h2)
          show (lineNum : Int) ≤ (n2 : Int)
          exact_mod_cast hle

/-! The claims. -/

/-- C1: the spec says a keyword match of the statement separator `:`
resets the per-statement sub-state and advances the statement counter.
The matcher cannot deliver it: a matched token byte always lies in
0xA3..0xFF (first conjunct), and the literal scan loop never even
terminates (second conjunct, shown at the failing input), so the colon
branch of `convertLine` is dead: on `PRINT 1: CLS` the colon is copied
verbatim (byte 58), `CLS` after it is not recognized as a keyword (its
letters 67, 76, 83 are copied), the statement counter stays 0 and the
in-PRINT flag stays set (third conjunct: the final state differs from
the fresh state only in `inPrint := true`). -/
theorem claim1_colon_separator_dead :
    (∀ st text wk m st', matchToken st text wk = .ok (some (m, st')) → m.value ≠ 58) ∧
    (∀ fuel, matchTokenGo false (("PRINT 1: CLS").data) fuel 0xA3 none = none) ∧
    convertLine st0 (("PRINT 1: CLS").data) =
      .ok ([0xF5, 0x0E, 0, 0, 1, 0, 0, 58, 67, 76, 83], { st0 with inPrint := true }) := by
  refine ⟨?_, ?_, by decide⟩
  · intro st text wk m st' h
    unfold matchToken at h
    cases hscan : scanTokens st.caseIndependent text with
    | none =>
      rw [hscan] at h
      cases h
    | some p =>
      obtain ⟨tok, len⟩ := p
      rw [hscan] at h
      dsimp only at h
      have hge := scanTokens_ge _ _ _ _ hscan
      split_ifs at h
      · cases h
      · cases h
      · split at h
        · cases h
        · split at h
          · cases h
          · cases h
            show tok ≠ 58
            omega
  · intro fuel
    exact matchTokenGo_never_exits false _ fuel 0xA3 none

/-- C1 witness: the first conjunct applied to a successful match (`CLS`
at keyword position matches as byte 0xFB, which is not the colon). -/
theorem claim1_witness : TokenMatch.value ⟨0xFB, 3⟩ ≠ 58 :=
  claim1_colon_separator_dead.1 st0 (("CLS").data) true ⟨0xFB, 3⟩ st0 (by decide)

/-- C2: the spec scenario expects `LET a=BIN 1010` to contain the
small-integer encoding of 10 (bytes 0x0A 0x00).  The code instead
matches `BIN` as token 0xC4 before `parseBinaryNumber` can run (the
matcher is tried first at non-keyword positions) and then encodes the
digits as decimal 1010 (bytes 0xF2 0x03).  The second conjunct records
what the repository's own `parseBinaryNumber` produces for the same
literal — the value 10 the claim describes. -/
theorem claim2_bin_literal_decimal :
    convertLine st0 (("LET a=BIN 1010").data) =
      .ok ([0xF1, 0x61, 0x3D, 0xC4, 0x0E, 0x00, 0x00, 0xF2, 0x03, 0x00], st0) ∧
    parseBinaryNumber (("BIN 1010").data) =
      .ok (some ([0x0E, 0x00, 0x00, 0x0A, 0x00, 0x00], 8)) :=
  ⟨by decide, by decide⟩

/-- C3: encoding a small integer in [-65535, 65535] and decoding the
six bytes per the documented layout recovers the value exactly, and
encoding the value zero on the float path gives five zero bytes after
the marker. -/
theorem claim3_smallint_roundtrip (n : Int) (hlo : -65535 ≤ n) (hhi : n ≤ 65535) :
    decodeSmallInt (encodeSmallInt n) = n ∧
    (∀ q : QV, q.num = 0 → encodeFloat q = .ok [0x0E, 0, 0, 0, 0, 0]) := by
  constructor
  · simp only [encodeSmallInt, decodeSmallInt]
    have hx : ¬(n < -65535) := by omega
    have hy : ¬(n > 65535) := by omega
    rw [if_neg hx, if_neg hy]
    split_ifs with hneg hf hf
    all_goals first
      | omega
      | exact hf.elim
  · intro q hq
    unfold encodeFloat
    rw [if_pos hq]

/-- C3 witness at -300. -/
theorem claim3_witness : decodeSmallInt (encodeSmallInt (-300)) = -300 :=
  (claim3_smallint_roundtrip (-300) (by norm_num) (by norm_num)).1

/-- C4: longest-prefix-wins.  Whenever the matcher returns a match, no
candidate token of the scanned range whose text is a non-empty prefix
of the input (case folded per the configuration) and which passes the
alphabetic-continuation boundary rule is longer than the returned
match. -/
theorem claim4_longest_match (st : ParserState) (text : List Char) (wantKeyword : Bool)
    (m : TokenMatch) (st' : ParserState)
    (hm : matchToken st text wantKeyword = .ok (some (m, st')))
    (t : Nat) (ht : t ∈ tokenRange)
    (h1 : (TokenMap t).text.data ≠ [])
    (h2 : matchesAt st.caseIndependent text t = true)
    (h3 : boundaryReject text (TokenMap t).text.data.length = false) :
    (TokenMap t).text.data.length ≤ m.length := by
  unfold matchToken at hm
  cases hscan : scanTokens st.caseIndependent text with
  | none =>
    rw [hscan] at hm
    cases hm
  | some p =>
    obtain ⟨tok, len⟩ := p
    rw [hscan] at hm
    dsimp only at hm
    have hb := scanFold_bound st.caseIndependent text t h1 h2 h3 tokenRange none ht
    unfold scanTokens at hscan
    rw [hscan] at hb
    split_ifs at hm
    · cases hm
    · cases hm
    · split at hm
      · cases hm
      · split at hm
        · cases hm
        · cases hm
          exact hb

/-- C4 witness: `CLS` at keyword position matches with length 3, and
the candidate 0xFB itself witnesses the bound. -/
theorem claim4_witness : (TokenMap 0xFB).text.data.length ≤ 3 :=
  claim4_longest_match st0 (("CLS").data) true ⟨0xFB, 3⟩ st0 (by decide) 0xFB
    (by decide) (by decide) (by decide) (by decide)

/-- C5: the dialect state machine.  From the unknown state the first
128K-only keyword (SPECTRUM 0xA3 or PLAY 0xA4) moves to 128K and the
first 48K-only UDG reference (T or U) moves to 48K; a set state is
never changed by either transition function; and a token exclusive to
the opposite variant is a hard error. -/
theorem claim5_dialect_state_machine :
    (handleProgramType st0 0xA3 = .ok { st0 with is48K := 0 }) ∧
    (handleProgramType st0 0xA4 = .ok { st0 with is48K := 0 }) ∧
    (tryUDG st0 (("T").data) 1 = .ok (some (⟨[0xA3], 2⟩, { st0 with is48K := 1 }))) ∧
    (tryUDG st0 (("U").data) 1 = .ok (some (⟨[0xA4], 2⟩, { st0 with is48K := 1 }))) ∧
    (∀ st token st', (st.is48K = 0 ∨ st.is48K = 1) →
      handleProgramType st token = .ok st' → st'.is48K = st.is48K) ∧
    (∀ st seq e m st', (st.is48K = 0 ∨ st.is48K = 1) →
      tryUDG st seq e = .ok (some (m, st')) → st'.is48K = st.is48K) ∧
    (∀ st, st.is48K = 1 → handleProgramType st 0xA3 = .error .mixedAlready48K) ∧
    (∀ st, st.is48K = 1 → handleProgramType st 0xA4 = .error .mixedAlready48K) ∧
    (∀ st e, st.is48K = 0 → tryUDG st (("T").data) e = .error (.udgNotIn128K ('T'))) ∧
    (∀ st e, st.is48K = 0 → tryUDG st (("U").data) e = .error (.udgNotIn128K ('U'))) := by
  refine ⟨by decide, by decide, by decide, by decide, ?_, ?_, ?_, ?_, ?_, ?_⟩
  · intro st token st' hset h
    unfold handleProgramType at h
    dsimp only at h
    split_ifs at h
    all_goals try cases h
    all_goals simp_all
  · intro st seq e m st' hset h
    unfold tryUDG at h
    dsimp only at h
    split_ifs at h
    all_goals try cases h
    all_goals simp_all
  · intro st h
    simp [handleProgramType, h]
  · intro st h
    simp [handleProgramType, h]
  · intro st e h
    unfold tryUDG
    rw [if_neg (by decide)]
    dsimp only
    rw [if_neg (by decide), if_pos (by decide), if_neg (by simp [h]), if_pos h]
    rfl
  · intro st e h
    unfold tryUDG
    rw [if_neg (by decide)]
    dsimp only
    rw [if_neg (by decide), if_pos (by decide), if_neg (by simp [h]), if_pos h]
    rfl

/-- C5 witness: the invariance and hard-error conjuncts applied at a
state already committed to 48K and one committed to 128K. -/
theorem claim5_witness :
    handleProgramType { st0 with is48K := 1 } 0xA3 = .error .mixedAlready48K ∧
    tryUDG { st0 with is48K := 0 } (("T").data) 1 = .error (.udgNotIn128K ('T')) ∧
    ParserState.is48K { st0 with is48K := 0 } = ParserState.is48K { st0 with is48K := 0 } :=
  ⟨claim5_dialect_state_machine.2.2.2.2.2.2.1 { st0 with is48K := 1 } rfl,
   claim5_dialect_state_machine.2.2.2.2.2.2.2.2.1 { st0 with is48K := 0 } 1 rfl,
   claim5_dialect_state_machine.2.2.2.2.1 { st0 with is48K := 0 } 0xFB
     { st0 with is48K := 0 } (Or.inl rfl) (by decide)⟩

/-- C6: `{AT 5 10}` inside a PRINT statement expands to exactly
0x16 5 10 with the following quoted text copied verbatim (first
conjunct, the full line); used outside a PRINT context the expansion is
a hard error, which lives in `getControlBytes` (third conjunct, fully
general); matching the AT or TAB token (0xAC/0xAD) outside a PRINT
statement is likewise a hard error of `validateTokenContext` (fourth
conjunct) and of the whole matcher (last two conjuncts). -/
theorem claim6_at_escape_print :
    convertLine st0 (("PRINT \x7bAT 5 10\x7d\"X\"").data) =
      .ok ([0xF5, 0x16, 5, 10, 34, 88, 34],
        { st0 with inPrint := true, currentParams := [5, 10] }) ∧
    expandSequence st0 (("\x7bAT 5 10\x7d").data) true =
      .error (.ctrlOutsidePrint ("AT")) ∧
    (∀ st cmd params, (cmd = "AT" ∨ cmd = "TAB") → st.inPrint = false →
      getControlBytes st cmd params = .error (.ctrlOutsidePrint cmd)) ∧
    (∀ st tok, (tok = 0xAC ∨ tok = 0xAD) → st.inPrint = false →
      validateTokenContext st tok (TokenMap tok).type (TokenMap tok).keywordClass =
        .error (.atTabOutsidePrint tok)) ∧
    matchToken st0 (("AT 0").data) false = .error (.atTabOutsidePrint 0xAC) ∧
    matchToken st0 (("TAB 0").data) false = .error (.atTabOutsidePrint 0xAD) := by
  refine ⟨by decide, by decide, ?_, ?_, by decide, by decide⟩
  · intro st cmd params hc hp
    unfold getControlBytes
    rw [if_pos ⟨hc, by simp [hp]⟩]
  · intro st tok htok hp
    unfold validateTokenContext
    rw [if_neg (by omega : ¬(tok = 58)), if_pos ⟨htok, by simp [hp]⟩]

/-- C6 witness: the general conjuncts applied to TAB. -/
theorem claim6_witness :
    getControlBytes st0 ("TAB") [1] = .error (.ctrlOutsidePrint ("TAB")) ∧
    validateTokenContext st0 0xAD (TokenMap 0xAD).type (TokenMap 0xAD).keywordClass =
      .error (.atTabOutsidePrint 0xAD) :=
  ⟨claim6_at_escape_print.2.2.1 st0 ("TAB") [1] (Or.inr rfl) rfl,
   claim6_at_escape_print.2.2.2.1 st0 0xAD (Or.inr rfl) rfl⟩

/-- C7 counterexample to the claim as stated: an unknown command name
with no parameters, `{INVALID}`, is not a hard error — the expander
returns `none` (not an escape) and the text is copied verbatim, exactly
as the repository's own test expects. -/
theorem claim7_counterexample :
    expandSequence st0 (("\x7bINVALID\x7d").data) false = .ok none := by
  decide

/-- C7 as amended: every integer parameter is range-checked against
the command's fixed bounds and an out-of-range parameter is a hard
error; a parameter-count mismatch is a hard error; and an unknown
command name is a hard error exactly when at least one parameter is
present and the first parses as an integer — with no parameters the
contents are not an escape and no error is raised (last conjunct). -/
theorem claim7_control_param_checks :
    (∀ n : Int, (n < 0 ∨ 23 < n) → validateControlParam ("AT") n 0 = .error .ctrlAtRow) ∧
    (∀ n : Int, (n < 0 ∨ 31 < n) → validateControlParam ("AT") n 1 = .error .ctrlAtCol) ∧
    (∀ (n : Int) (i : Nat), 2 ≤ i → validateControlParam ("AT") n i = .error .ctrlAtCount) ∧
    (∀ (n : Int) (i : Nat), (n < 0 ∨ 31 < n) →
      validateControlParam ("TAB") n i = .error .ctrlTabRange) ∧
    (∀ (n : Int) (i : Nat) (c : String), (c = "INK" ∨ c = "PAPER") → (n < 0 ∨ 7 < n) →
      validateControlParam c n i = .error (.ctrlColourRange c)) ∧
    (∀ (n : Int) (i : Nat) (c : String),
      (c = "FLASH" ∨ c = "BRIGHT" ∨ c = "INVERSE" ∨ c = "OVER") → (n < 0 ∨ 1 < n) →
      validateControlParam c n i = .error (.ctrlBinaryRange c)) ∧
    (∀ (n : Int) (i : Nat) (c : String), c ≠ "AT" → c ≠ "TAB" → c ≠ "INK" → c ≠ "PAPER" →
      c ≠ "FLASH" → c ≠ "BRIGHT" → c ≠ "INVERSE" → c ≠ "OVER" →
      validateControlParam c n i = .error (.ctrlUnknown c)) ∧
    expandSequence st0 (("\x7bINVALID 1\x7d").data) false = .error (.ctrlUnknown ("INVALID")) ∧
    expandSequence { st0 with inPrint := true } (("\x7bAT 5\x7d").data) false =
      .error (.ctrlParamCount ("AT")) ∧
    expandSequence { st0 with inPrint := true } (("\x7bINK 8\x7d").data) false =
      .error (.ctrlColourRange ("INK")) ∧
    expandSequence st0 (("\x7bINVALID\x7d").data) false = .ok none := by
  refine ⟨?_, ?_, ?_, ?_, ?_, ?_, ?_, by decide, by decide, by decide, by decide⟩
  · intro n hn
    unfold validateControlParam
    rw [if_pos rfl, if_pos rfl, if_pos hn]
  · intro n hn
    unfold validateControlParam
    rw [if_pos rfl, if_neg (by decide), if_pos rfl, if_pos hn]
  · intro n i hi
    unfold validateControlParam
    rw [if_pos rfl, if_neg (by omega), if_neg (by omega)]
  · intro n i hn
    unfold validateControlParam
    rw [if_neg (by decide), if_pos rfl, if_pos hn]
  · intro n i c hc hn
    rcases hc with rfl | rfl
    · unfold validateControlParam
      rw [if_neg (by decide), if_neg (by decide), if_pos (Or.inl rfl), if_pos hn]
    · unfold validateControlParam
      rw [if_neg (by decide), if_neg (by decide), if_pos (Or.inr rfl), if_pos hn]
  · intro n i c hc hn
    rcases hc with rfl | rfl | rfl | rfl <;>
      (unfold validateControlParam
       rw [if_neg (by decide), if_neg (by decide), if_neg (by decide)]
       rw [if_pos (by tauto), if_pos hn])
  · intro n i c h1 h2 h3 h4 h5 h6 h7 h8
    unfold validateControlParam
    rw [if_neg h1, if_neg h2, if_neg (by tauto), if_neg (by tauto)]

/-- C7 witness: the range and unknown-command conjuncts applied at
concrete out-of-range inputs. -/
theorem claim7_witness :
    validateControlParam ("AT") 24 0 = .error .ctrlAtRow ∧
    validateControlParam ("INK") 8 0 = .error (.ctrlColourRange ("INK")) ∧
    validateControlParam ("FOO") 1 0 = .error (.ctrlUnknown ("FOO")) :=
  ⟨claim7_control_param_checks.1 24 (by norm_num),
   claim7_control_param_checks.2.2.2.2.1 8 0 ("INK") (Or.inl rfl) (by norm_num),
   claim7_control_param_checks.2.2.2.2.2.2.1 1 0 ("FOO") (by decide) (by decide) (by decide)
     (by decide) (by decide) (by decide) (by decide) (by decide)⟩

/-- C8 counterexample to the claim as stated: the lines `100 ""` and
`50` have strictly decreasing numbers, yet no ordering error is raised
— parsing the second line fails first (it has no statements), and
`Parse` checks ordering only after a successful `parseLine`. -/
theorem claim8_counterexample :
    extractedNumbers [("100 \"\"").data, ("50").data] = [100, 50] ∧
    ParseProgram false [("100 \"\"").data, ("50").data] =
      (.error (.atLine 2 .noStatements), []) :=
  ⟨by decide, by decide⟩

/-- C8 as amended: non-decreasing line numbers never raise an ordering
error (in particular any already-sorted sequence the assembler itself
produced), a strictly decreasing step between successfully parsed lines
is a hard error, and an equal line number succeeds with a non-fatal
duplicate warning; an ordering error is only raised when the offending
line itself (and every non-skipped line before it) parses
successfully. -/
theorem claim8_ordering :
    (∀ (ci : Bool) (lines : List (List Char)),
      (extractedNumbers lines).Chain' (· ≤ ·) →
      ∀ n p, (ParseProgram ci lines).1 ≠ .error (.numberSmaller n p)) ∧
    ParseProgram false [("100 \"\"").data, ("50 \"\"").data] =
      (.error (.numberSmaller 50 100), []) ∧
    ParseProgram false [("100 \"\"").data, ("100 \"\"").data] =
      (.ok [100, 0, 3, 0, 34, 34, 13, 100, 0, 3, 0, 34, 34, 13], [100]) := by
  refine ⟨?_, by decide, by decide⟩
  intro ci lines hc n p
  unfold ParseProgram
  refine parseProgramAux_no_order lines _ [] [] hc ?_ n p
  intro n2 h2
  show (-1 : Int) ≤ (n2 : Int)
  omega

/-- C8 witness: a sorted two-line program raises no ordering error. -/
theorem claim8_witness :
    (ParseProgram false [("10 \"\"").data, ("20 \"\"").data]).1 ≠
      .error (.numberSmaller 20 10) :=
  claim8_ordering.1 false [("10 \"\"").data, ("20 \"\"").data]
    (by
      rw [show extractedNumbers [("10 \"\"").data, ("20 \"\"").data] = [10, 20] from by decide]
      exact List.chain'_cons.mpr ⟨by norm_num, List.chain'_singleton 20⟩)
    20 10

/-- C9: the small-integer encoder is total with no error path: for
every integer it returns six bytes with marker 0x0E first and zero
bytes at positions 1 and 5, and inputs beyond the bounds are silently
clamped to the nearest bound. -/
theorem claim9_encode_total (val : Int) :
    (encodeSmallInt val).length = 6 ∧
    (encodeSmallInt val).headD 0 = 0x0E ∧
    (encodeSmallInt val).getD 1 0 = 0 ∧
    (encodeSmallInt val).getD 5 0 = 0 ∧
    (65535 < val → encodeSmallInt val = encodeSmallInt 65535) ∧
    (val < -65535 → encodeSmallInt val = encodeSmallInt (-65535)) := by
  refine ⟨rfl, rfl, rfl, rfl, ?_, ?_⟩
  · intro h
    have hv : (if val < -65535 then (-65535 : Int) else if val > 65535 then 65535 else val) =
        65535 := by
      rw [if_neg (by omega), if_pos (by omega)]
    unfold encodeSmallInt
    dsimp only
    rw [hv]
    decide
  · intro h
    have hv : (if val < -65535 then (-65535 : Int) else if val > 65535 then 65535 else val) =
        -65535 := by
      rw [if_pos (by omega)]
    unfold encodeSmallInt
    dsimp only
    rw [hv]
    decide

/-- C9 witness: clamping at 70000 and -70000. -/
theorem claim9_witness :
    (encodeSmallInt 70000).length = 6 ∧
    encodeSmallInt 70000 = encodeSmallInt 65535 ∧
    encodeSmallInt (-70000) = encodeSmallInt (-65535) :=
  ⟨(claim9_encode_total 70000).1, (claim9_encode_total 70000).2.2.2.2.1 (by norm_num),
    (claim9_encode_total (-70000)).2.2.2.2.2 (by norm_num)⟩

/-- When the character after a leading dot is not a digit, the number
text `ParseFloat` receives has no mantissa digit and the parse fails,
whatever follows. -/
theorem goParseFloat_dot (d : Char) (rs : List Char) (hd : isDigitChar d = false) :
    goParseFloat ('.' :: d :: rs) = none := by
  have hfp : List.takeWhile isDigitChar (d :: rs) = [] := by
    rw [List.takeWhile_cons]
    simp [hd]
  show goParseFloatTail [] ((d :: rs).takeWhile isDigitChar)
      ((d :: rs).drop ((d :: rs).takeWhile isDigitChar).length) = none
  rw [hfp]
  show goParseFloatTail [] [] (d :: rs) = none
  unfold goParseFloatTail
  dsimp only
  split_ifs <;> simp_all

/-- C10: an input whose leading character is a dot with no digit next
to it makes the decimal number parser fail hard instead of returning
the zero-consumed not-a-number result, and consequently a stray dot in
statement text aborts the whole conversion (second conjunct at the
line `LET x=.`). -/
theorem claim10_stray_dot (text : List Char) (h0 : text.headD ' ' = '.')
    (hne : text ≠ []) (h2 : 2 ≤ text.length → isDigitChar (text.getD 1 ' ') = false) :
    (∃ e, parseNumber text = .error e) ∧
    convertLine st0 (("LET x=.").data) = .error (.ctxNumber .invalidNumberFormat) := by
  refine ⟨?_, by decide⟩
  obtain ⟨c, rest, rfl⟩ : ∃ c r, text = c :: r := by
    cases text with
    | nil => exact absurd rfl hne
    | cons c r => exact ⟨c, r, rfl⟩
  obtain rfl : c = '.' := by simpa using h0
  cases rest with
  | nil => exact ⟨.invalidNumberFormat, by decide⟩
  | cons d rs =>
    have hd : isDigitChar d = false := by simpa using h2 (by simp)
    by_cases hdot : d = '.'
    · subst hdot
      refine ⟨.multipleDecimalPoints, ?_⟩
      unfold parseNumber
      have hm : scanMantissa ('.' :: '.' :: rs) 0 false = .error .multipleDecimalPoints := by
        unfold scanMantissa
        rw [if_neg (by decide), if_pos rfl, if_neg (by decide)]
        unfold scanMantissa
        rw [if_neg (by decide), if_pos rfl, if_pos rfl]
      rw [hm]
    · refine ⟨.invalidNumberFormat, ?_⟩
      unfold parseNumber
      have hm : scanMantissa ('.' :: d :: rs) 0 false = .ok (1, true) := by
        unfold scanMantissa
        rw [if_neg (by decide), if_pos rfl, if_neg (by decide)]
        unfold scanMantissa
        rw [if_neg (by simp [hd]), if_neg hdot]
      rw [hm]
      dsimp only
      rw [show List.drop 1 ('.' :: d :: rs) = d :: rs from rfl]
      obtain ⟨k, hk⟩ : ∃ k, (scanExponent (d :: rs)).1 = k := ⟨_, rfl⟩
      rw [hk]
      rw [if_neg (by omega)]
      cases k with
      | zero =>
        rw [show ('.' :: d :: rs).take (1 + 0) = ['.'] from rfl]
        rw [show goParseFloat ['.'] = none from by decide]
      | succ k2 =>
        have h12 : 1 + (k2 + 1) = (k2 + 1) + 1 := by omega
        rw [h12, List.take_succ_cons, List.take_succ_cons]
        rw [goParseFloat_dot d _ hd]

/-- C10 witness: a lone dot. -/
theorem claim10_witness : ∃ e, parseNumber ((".").data) = .error e :=
  (claim10_stray_dot ((".").data) (by decide) (by decide)
    (fun h => absurd h (by decide))).1

end ZxBasic
